import Mathlib

/-!
Verification development for the task-manager backend: the local due-date
extraction heuristics (parseInputLocal), the reminder scheduler
(scheduleReminder / cancelReminder and the timeout callback), the push
delivery fan-out (sendReminder), and the POST/PUT task handlers.

Times are modelled as integer milliseconds since the epoch (UTC).  The
local time zone of the server is modelled as a fixed offset in milliseconds
(the reference zone of the source, Asia/Karachi, has no DST).  The chrono
library (the primary date grammar) is external to the repository and is
modelled as an oracle argument: when it matches it yields the matched text
and the resulting UTC instant; the claims under study all condition on it
producing no match.
-/

set_option maxRecDepth 4000

namespace TaskManager

/-- Whitespace as treated by the JS trim and whitespace-collapse regexes
(restricted to the ASCII whitespace the inputs of interest contain). -/
def isSpaceChar (c : Char) : Bool := c = ' ' || c = '\t' || c = '\n' || c = '\r'

/-- JS String.prototype.trim. -/
def trimChars (cs : List Char) : List Char :=
  ((cs.dropWhile isSpaceChar).reverse.dropWhile isSpaceChar).reverse

/-- JS String.prototype.trim on strings. -/
def jsTrim (s : String) : String := String.mk (trimChars s.toList)

/-- ASCII lower-casing, as toLowerCase acts on the inputs of interest. -/
def lowerChar (c : Char) : Char :=
  if 'A' ≤ c && c ≤ 'Z' then Char.ofNat (c.toNat + 32) else c

/-- JS String.prototype.toLowerCase (ASCII fragment). -/
def lowerList (cs : List Char) : List Char := cs.map lowerChar

/-- Does the second list start with the first one. -/
def startsWithL : List Char → List Char → Bool
  | [], _ => true
  | _ :: _, [] => false
  | p :: ps, c :: cs => (p = c) && startsWithL ps cs

/-- JS String.prototype.includes. -/
def hasSubstr (pat : List Char) : List Char → Bool
  | [] => startsWithL pat []
  | c :: cs => startsWithL pat (c :: cs) || hasSubstr pat cs

/-- Remove the first occurrence of a non-empty pattern. -/
def removeFirstSub (pat : List Char) : List Char → List Char
  | [] => []
  | c :: cs =>
    if startsWithL pat (c :: cs) then cs.drop (pat.length - 1)
    else c :: removeFirstSub pat cs

/-- JS s.replace(pat, two-quote empty string) for a plain string pattern:
removes the first occurrence; an empty pattern leaves the string unchanged. -/
def replaceFirstSub (cs pat : List Char) : List Char :=
  if pat.isEmpty then cs else removeFirstSub pat cs

/-- Helper for the whitespace collapse; the flag records whether the
previous character was whitespace. -/
def collapseWsAux : Bool → List Char → List Char
  | _, [] => []
  | prevSp, c :: cs =>
    if isSpaceChar c then
      if prevSp then collapseWsAux true cs else ' ' :: collapseWsAux true cs
    else c :: collapseWsAux false cs

/-- Collapse of every whitespace run to a single space, the global regex
replace of the source. -/
def collapseWs (cs : List Char) : List Char := collapseWsAux false cs

/-- Numeric value of a digit string, as parseInt reads the match. -/
def digitsVal (ds : List Char) : Nat :=
  ds.foldl (fun a c => a * 10 + (c.toNat - 48)) 0

/-- The alternatives of the unit group of the source regexes, in source
order; a JS alternation takes the leftmost alternative that matches. -/
def unitAlternatives : List (List Char) :=
  [String.toList "hour", String.toList "hours", String.toList "minute",
   String.toList "minutes", String.toList "min"]

/-- First alternative of the unit group matching at the head of the list. -/
def matchUnit (cs : List Char) : Option (List Char) :=
  unitAlternatives.find? (fun u => startsWithL u cs)

/-- A match of the relative-time regex inside the input: start index,
length of the matched text, numeric amount, matched unit word. -/
structure InTimeMatch where
  start : Nat
  length : Nat
  amount : Nat
  unit : List Char
deriving Repr, DecidableEq

/-- Match of the source regex at the head of the list: literal letters i
and n, a space, one or more digits, a space, then the unit alternation.
Returns length of the matched text, the amount and the unit. -/
def matchInTimeAt (cs : List Char) : Option (Nat × Nat × List Char) :=
  match cs with
  | 'i' :: 'n' :: ' ' :: rest =>
    let ds := rest.takeWhile Char.isDigit
    if ds.isEmpty then none
    else
      match rest.drop ds.length with
      | ' ' :: rest2 =>
        match matchUnit rest2 with
        | some u => some (3 + ds.length + 1 + u.length, digitsVal ds, u)
        | none => none
      | _ => none
  | _ => none

/-- Leftmost match of the relative-time regex, as a JS regex search finds
it; the second argument is the index of the head of the list in the whole
string. -/
def findInTime : List Char → Nat → Option InTimeMatch
  | [], _ => none
  | c :: cs, i =>
    match matchInTimeAt (c :: cs) with
    | some (len, amt, u) => some ⟨i, len, amt, u⟩
    | none => findInTime cs (i + 1)

def msPerMinute : Int := 60 * 1000
def msPerHour : Int := 60 * 60 * 1000
def msPerDay : Int := 24 * 60 * 60 * 1000

/-- Local calendar day number of a UTC instant in a zone of fixed offset
off (milliseconds east of UTC). -/
def localDayOf (t off : Int) : Int := (t + off) / msPerDay

/-- Milliseconds since local midnight of a UTC instant. -/
def localTimeOfDay (t off : Int) : Int := (t + off) % msPerDay

/-- The tomorrow heuristic of the source: the Date built from the current
local year, month, day + 1 at 09:00 local, read back as a UTC instant. -/
def tomorrowDue (now off : Int) : Int :=
  (localDayOf now off + 1) * msPerDay + 9 * msPerHour - off

/-- The today heuristic: the current local calendar day at 17:00 local. -/
def todayDue (now off : Int) : Int :=
  localDayOf now off * msPerDay + 17 * msPerHour - off

/-- The next-week heuristic: now + 7 days, then setHours 9 0 0 0 in local
time. -/
def nextWeekDue (now off : Int) : Int :=
  localDayOf (now + 7 * msPerDay) off * msPerDay + 9 * msPerHour - off

/-- The parse result shape of the source: a cleaned title and an optional
absolute due instant. -/
structure ParseResult where
  title : String
  dueDate : Option Int
deriving Repr, DecidableEq

/-- parseInputLocal of the source.  The chrono grammar (an external
library) is the oracle argument: some (text, utc) models a successful
grammar match with matched text and the resulting UTC instant, none models
no match (or an invalid parsed date).  now is the reference instant, off
the fixed local-zone offset. -/
def parseInputLocal (chrono : Option (String × Int)) (now off : Int)
    (input : String) : ParseResult :=
  let t0 := jsTrim input
  match chrono with
  | some (text, utc) =>
    let s1 := trimChars (replaceFirstSub t0.toList text.toList)
    let s2 := trimChars (collapseWs s1)
    { title := String.mk s2, dueDate := some utc }
  | none =>
    let lower := lowerList t0.toList
    match findInTime lower 0 with
    | some m =>
      let minutes : Nat :=
        if startsWithL (String.toList "hour") m.unit then m.amount * 60
        else m.amount
      { title := String.mk (trimChars
          (t0.toList.take m.start ++ t0.toList.drop (m.start + m.length))),
        dueDate := some (now + (minutes : Int) * msPerMinute) }
    | none =>
      if hasSubstr (String.toList "tomorrow") lower then
        { title := t0, dueDate := some (tomorrowDue now off) }
      else if hasSubstr (String.toList "today") lower then
        { title := t0, dueDate := some (todayDue now off) }
      else if hasSubstr (String.toList "next week") lower then
        { title := t0, dueDate := some (nextWeekDue now off) }
      else
        { title := t0, dueDate := none }

/-- The task record of the source (dueDate as an optional UTC instant in
milliseconds; the source stores an ISO string). -/
structure Task where
  id : String
  title : String
  dueDate : Option Int
  completed : Bool
  email : Option String
deriving Repr, DecidableEq

/-- Maximum delay representable by setTimeout: 2 to the 31 minus 1
milliseconds, the clamp constant of the source. -/
def MAX_DELAY : Int := 2 ^ 31 - 1

/-- The delay computation of scheduleReminder: target is one hour before
due; a task due within the next hour gets a 5 second delay; an overdue
task gets nothing; the delay is clamped to MAX_DELAY above and (by the
setTimeout call site) to 0 below.  Returns the delay actually armed, or
none when no timer is armed. -/
def computeDelay (due now : Int) : Option Int :=
  let delay0 := due - msPerHour - now
  let delay1 := if due > now ∧ delay0 ≤ 0 then 5000 else delay0
  if due ≤ now then none
  else some (max 0 (min delay1 MAX_DELAY))

/-- The guard of scheduleReminder followed by the delay computation: the
delay armed for a task, or none when the task has no dueDate, is completed,
or is overdue. -/
def scheduleDelay (t : Task) (now : Int) : Option Int :=
  match t.dueDate with
  | none => none
  | some due => if t.completed then none else computeDelay due now

/-- Scheduler state: the reminders map from task id to timeout id, the set
of armed-and-not-cleared timers (a cleared or fired timeout never runs
again), a fresh-timeout-id counter, and the log of deliveries performed
(timeout id, task id). -/
structure Sched where
  reminders : List (String × Nat)
  active : List Nat
  nextId : Nat
  delivered : List (Nat × String)
deriving Repr, DecidableEq

/-- The initial scheduler state: empty map, no timers, nothing delivered. -/
def sched0 : Sched := ⟨[], [], 0, []⟩

/-- reminders.get taskId. -/
def lookupRem (s : Sched) (taskId : String) : Option Nat :=
  (s.reminders.find? (fun p => p.1 == taskId)).map (fun p => p.2)

/-- cancelReminder of the source: if the map holds a timeout for the task,
clearTimeout it (it can never run) and delete the map entry; otherwise a
no-op. -/
def cancelReminder (s : Sched) (taskId : String) : Sched :=
  match lookupRem s taskId with
  | some tid =>
    { s with active := s.active.filter (fun x => x ≠ tid),
             reminders := s.reminders.filter (fun p => p.1 ≠ taskId) }
  | none => s

/-- reminders.set: replace any entry for the key, append the new one. -/
def setRem (l : List (String × Nat)) (k : String) (v : Nat) :
    List (String × Nat) :=
  l.filter (fun p => p.1 ≠ k) ++ [(k, v)]

/-- scheduleReminder of the source: guard on dueDate and completed; when
replace is set, cancelReminder first; skip overdue tasks; otherwise arm a
fresh timeout and record it in the reminders map. -/
def scheduleReminderS (s : Sched) (t : Task) (rep : Bool) (now : Int) :
    Sched :=
  match t.dueDate with
  | none => s
  | some due =>
    if t.completed then s
    else
      let s1 := if rep then cancelReminder s t.id else s
      match computeDelay due now with
      | none => s1
      | some _ =>
        { s1 with active := s1.active ++ [s1.nextId],
                  reminders := setRem s1.reminders t.id s1.nextId,
                  nextId := s1.nextId + 1 }

/-- The body of the setTimeout callback (sendReminder for the captured
task, then unconditionally reminders.delete of the task id).  The body
itself performs no staleness or generation check: whenever it runs, it
delivers. -/
def timeoutCallback (s : Sched) (tid : Nat) (taskId : String) : Sched :=
  { s with delivered := s.delivered ++ [(tid, taskId)],
           reminders := s.reminders.filter (fun p => p.1 ≠ taskId) }

/-- A timer fire as gated by the platform: only an armed, never-cleared
timeout can run, and it runs at most once; running it executes the callback
body. -/
def fireTimer (s : Sched) (tid : Nat) (taskId : String) : Option Sched :=
  if tid ∈ s.active then
    some (timeoutCallback
      { s with active := s.active.filter (fun x => x ≠ tid) } tid taskId)
  else none

/-- The push fan-out loop of sendReminder: iterate the snapshot taken at
entry; for each subscription attempt a send; on failure filter exactly that
subscription out of the live registry.  Subscriptions are identified by
opaque tokens (reference identity of the source objects); failing says
whether the send to a subscription fails.  Returns the list of
subscriptions attempted, in order, and the final registry. -/
def fanoutGo (failing : Nat → Bool) : List Nat → List Nat →
    List Nat × List Nat
  | [], reg => ([], reg)
  | s :: rest, reg =>
    let reg1 := if failing s then reg.filter (fun x => x ≠ s) else reg
    let r := fanoutGo failing rest reg1
    (s :: r.1, r.2)

/-- One delivery fan-out over the registry: the snapshot is the registry
at the moment of delivery. -/
def pushFanout (failing : Nat → Bool) (reg : List Nat) :
    List Nat × List Nat :=
  fanoutGo failing reg reg

/-- JS falsiness of an optional string field: undefined or empty. -/
def jsFalsyStr : Option String → Bool
  | none => true
  | some s => s == ""

/-- Outcome of the POST tasks handler: a 400 rejection (no task stored, no
reminder scheduled), or the stored task together with the delay armed by
the scheduleReminder call that follows the store write. -/
inductive PostOutcome where
  | badRequest
  | created (t : Task) (armedDelay : Option Int)
deriving Repr, DecidableEq

/-- The POST tasks handler: when title is falsy and input is truthy, parse
the input and take title and dueDate from the parse; reject with 400 when
the resulting title is falsy or trims to empty; otherwise store the task
and invoke scheduleReminder on it. -/
def postTasks (titleB inputB : Option String) (dueB : Option Int)
    (emailB : Option String) (parse : String → ParseResult)
    (newId : String) (now : Int) : PostOutcome :=
  let pr : Option ParseResult :=
    if jsFalsyStr titleB ∧ ¬ jsFalsyStr inputB then
      some (parse (inputB.getD ""))
    else none
  let title1 : Option String :=
    match pr with
    | some p => some p.title
    | none => titleB
  let due1 : Option Int :=
    match pr with
    | some p => p.dueDate
    | none => dueB
  if jsFalsyStr title1 ∨ jsTrim (title1.getD "") = "" then
    PostOutcome.badRequest
  else
    let t : Task := ⟨newId, jsTrim (title1.getD ""), due1, false, emailB⟩
    PostOutcome.created t (scheduleDelay t now)

/-- Body of a PUT tasks request.  For dueDate and email, the outer none is
an absent (undefined) field and some carries the supplied value (possibly
null); completed counts as supplied only when it is a boolean. -/
structure PutBody where
  title : Option String
  dueDate : Option (Option Int)
  completed : Option Bool
  email : Option (Option String)
  input : Option String
deriving Repr, DecidableEq

/-- The update construction of the PUT tasks handler on a found task: when
input is truthy, title falsy and dueDate undefined, title and dueDate come
from parsing the input; each field keeps the stored value unless supplied. -/
def putTask (existing : Task) (b : PutBody)
    (parse : String → ParseResult) : Task :=
  let useParse : Bool :=
    !(jsFalsyStr b.input) && jsFalsyStr b.title && decide (b.dueDate = none)
  let nt : Option String :=
    if useParse then some (parse (b.input.getD "")).title else b.title
  let nd : Option (Option Int) :=
    if useParse then some (parse (b.input.getD "")).dueDate else b.dueDate
  { id := existing.id,
    title := match nt with
             | some s => jsTrim s
             | none => existing.title,
    dueDate := match nd with
               | some d => d
               | none => existing.dueDate,
    completed := match b.completed with
                 | some c => c
                 | none => existing.completed,
    email := match b.email with
             | some e => e
             | none => existing.email }

/-- A task used to instantiate scheduler runs: fixed id and title, a given
due instant, not completed. -/
def demoTask (due : Int) : Task := ⟨"t1", "demo", some due, false, none⟩

/-- The state after the arming step of scheduleReminder: a fresh timeout is
armed and recorded in the reminders map under the task id. -/
def armState (s : Sched) (taskId : String) : Sched :=
  ⟨setRem s.reminders taskId s.nextId, s.active ++ [s.nextId],
   s.nextId + 1, s.delivered⟩

theorem computeDelay_pos_isSome (due now : Int) (h : now < due) :
    ∃ d, computeDelay due now = some d :=
  ⟨_, by simp only [computeDelay]; rw [if_neg (not_le.mpr h)]⟩

theorem scheduleReminderS_arm (s : Sched) (t : Task) (due now : Int)
    (h1 : t.dueDate = some due) (h2 : t.completed = false) (h3 : now < due) :
    scheduleReminderS s t true now = armState (cancelReminder s t.id) t.id := by
  obtain ⟨d, hd⟩ := computeDelay_pos_isSome due now h3
  simp only [scheduleReminderS, h1, h2, hd, armState, Bool.false_eq_true,
    if_false, if_true]

/-- C1 counterexample: after two rapid reschedules of the same task the
reminders map holds the newer timeout (id 1) and timeout 0 is superseded;
yet running the source timeout callback body for the superseded timeout 0
delivers (the delivery log grows) instead of detecting staleness and
no-oping — the callback performs no generation check, and it even deletes
the reminders entry of the newer generation. -/
theorem C1_counterexample :
    lookupRem (scheduleReminderS (scheduleReminderS sched0
        (demoTask 7200000) true 0) (demoTask 7200000) true 0) "t1" = some 1
    ∧ (timeoutCallback (scheduleReminderS (scheduleReminderS sched0
        (demoTask 7200000) true 0) (demoTask 7200000) true 0)
        0 "t1").delivered = [(0, "t1")]
    ∧ (timeoutCallback (scheduleReminderS (scheduleReminderS sched0
        (demoTask 7200000) true 0) (demoTask 7200000) true 0)
        0 "t1").delivered ≠ []
    ∧ (timeoutCallback (scheduleReminderS (scheduleReminderS sched0
        (demoTask 7200000) true 0) (demoTask 7200000) true 0)
        0 "t1").reminders = [] := by
  refine ⟨by decide, by decide, by decide, by decide⟩

/-- C1 (amended): two rapid reschedules of one future-due task leave
exactly one armed timeout (the newer, id 1): the earlier timeout was
cancelled via clearTimeout, so the platform never runs it (fireTimer on it
is disabled), and running the surviving timeout delivers exactly once.
There is no generation counter; single-firing comes from timer
cancellation, not from a staleness check in the callback. -/
theorem C1_reschedule_single_fire (due now : Int) (h : now < due) :
    scheduleReminderS (scheduleReminderS sched0 (demoTask due) true now)
        (demoTask due) true now = ⟨[("t1", 1)], [1], 2, []⟩
    ∧ fireTimer ⟨[("t1", 1)], [1], 2, []⟩ 0 "t1" = none
    ∧ fireTimer ⟨[("t1", 1)], [1], 2, []⟩ 1 "t1"
        = some ⟨[], [], 2, [(1, "t1")]⟩ := by
  refine ⟨?_, by decide, by decide⟩
  rw [scheduleReminderS_arm _ _ due now rfl rfl h,
    scheduleReminderS_arm _ _ due now rfl rfl h]
  dsimp only [demoTask]
  decide

/-- C1 witness: the amended theorem at due 7200000, now 0. -/
theorem C1_witness :
    scheduleReminderS (scheduleReminderS sched0 (demoTask 7200000) true 0)
        (demoTask 7200000) true 0 = ⟨[("t1", 1)], [1], 2, []⟩
    ∧ fireTimer ⟨[("t1", 1)], [1], 2, []⟩ 0 "t1" = none
    ∧ fireTimer ⟨[("t1", 1)], [1], 2, []⟩ 1 "t1"
        = some ⟨[], [], 2, [(1, "t1")]⟩ :=
  C1_reschedule_single_fire 7200000 0 (by decide)

/-- C2: for a non-completed task with a due date, the armed delay is
dueDate minus one hour minus now (subject only to the ceiling clamp) when
the due instant is more than one hour away; a fixed 5 second delay when the
due instant is in the future but at most one hour away; and nothing is
armed (the scheduler state is untouched) when the due instant is at or
before now. -/
theorem C2_armed_delay (t : Task) (due now : Int) (s : Sched)
    (h1 : t.dueDate = some due) (h2 : t.completed = false) :
    (msPerHour < due - now →
      scheduleDelay t now = some (min (due - msPerHour - now) MAX_DELAY))
    ∧ (now < due → due - now ≤ msPerHour → scheduleDelay t now = some 5000)
    ∧ (due ≤ now → scheduleDelay t now = none
        ∧ scheduleReminderS s t false now = s) := by
  have hmaxval : MAX_DELAY = (2147483647 : Int) := by norm_num [MAX_DELAY]
  refine ⟨fun hfar => ?_, fun hfut hnear => ?_, fun hover => ?_⟩
  · simp only [scheduleDelay, h1, h2, Bool.false_eq_true, if_false,
      computeDelay]
    rw [if_neg (by simp only [msPerHour] at hfar ⊢; omega),
      if_neg (by simp only [msPerHour] at hfar ⊢; omega)]
    rw [Option.some_inj, hmaxval]
    simp only [msPerHour] at hfar ⊢
    omega
  · simp only [scheduleDelay, h1, h2, Bool.false_eq_true, if_false,
      computeDelay]
    rw [if_neg (not_le.mpr hfut), if_pos ⟨hfut, by omega⟩,
      Option.some_inj]
    norm_num [MAX_DELAY]
  · have hnone : computeDelay due now = none := by
      simp only [computeDelay]
      rw [if_pos hover]
    refine ⟨?_, ?_⟩
    · simp only [scheduleDelay, h1, h2, Bool.false_eq_true, if_false, hnone]
    · simp only [scheduleReminderS, h1, h2, Bool.false_eq_true, if_false,
        hnone]

/-- C2 witness: the three cases of the theorem at concrete instants. -/
theorem C2_witness :
    scheduleDelay ⟨"a", "x", some 7300000, false, none⟩ 0 = some 3700000
    ∧ scheduleDelay ⟨"a", "x", some 3600000, false, none⟩ 0 = some 5000
    ∧ scheduleDelay ⟨"a", "x", some 0, false, none⟩ 0 = none
    ∧ scheduleReminderS sched0 ⟨"a", "x", some 0, false, none⟩ false 0
        = sched0 := by
  have hfar := (C2_armed_delay ⟨"a", "x", some 7300000, false, none⟩
    7300000 0 sched0 rfl rfl).1 (by decide)
  have hnear := (C2_armed_delay ⟨"a", "x", some 3600000, false, none⟩
    3600000 0 sched0 rfl rfl).2.1 (by decide) (by decide)
  have hover := (C2_armed_delay ⟨"a", "x", some 0, false, none⟩
    0 0 sched0 rfl rfl).2.2 (by decide)
  exact ⟨by rw [hfar]; decide, hnear, hover.1, hover.2⟩

/-- C7: whenever the raw delay (dueDate minus one hour minus now) exceeds
the maximum 32-bit millisecond setTimeout delay, the armed delay is exactly
that ceiling, so the reminder fires early. -/
theorem C7_delay_ceiling (t : Task) (due now : Int)
    (h1 : t.dueDate = some due) (h2 : t.completed = false)
    (h3 : MAX_DELAY < due - msPerHour - now) :
    scheduleDelay t now = some MAX_DELAY := by
  have hmax : MAX_DELAY = (2147483647 : Int) := by norm_num [MAX_DELAY]
  simp only [scheduleDelay, h1, h2, Bool.false_eq_true, if_false,
    computeDelay]
  rw [hmax] at h3
  rw [if_neg (by simp only [msPerHour] at h3 ⊢; omega),
    if_neg (by simp only [msPerHour] at h3 ⊢; omega),
    Option.some_inj, hmax]
  simp only [msPerHour] at h3 ⊢
  omega

/-- C7 witness: a task due MAX_DELAY plus one hour plus one millisecond
from now is armed with exactly the ceiling delay. -/
theorem C7_witness :
    scheduleDelay ⟨"a", "x", some (2147483647 + 3600000 + 1), false, none⟩ 0
      = some MAX_DELAY :=
  C7_delay_ceiling ⟨"a", "x", some (2147483647 + 3600000 + 1), false, none⟩
    (2147483647 + 3600000 + 1) 0 rfl rfl (by norm_num [MAX_DELAY, msPerHour])

theorem startsWithL_sound (p : List Char) : ∀ cs : List Char,
    startsWithL p cs = true → ∃ t, cs = p ++ t := by
  induction p with
  | nil => exact fun cs _ => ⟨cs, rfl⟩
  | cons a ps ih =>
    intro cs h
    cases cs with
    | nil => simp [startsWithL] at h
    | cons c cs2 =>
      simp only [startsWithL, Bool.and_eq_true, decide_eq_true_eq] at h
      obtain ⟨t, ht⟩ := ih cs2 h.2
      exact ⟨t, by rw [h.1, ht]; rfl⟩

theorem matchInTimeAt_sound (cs : List Char) (len amt : Nat) (u : List Char)
    (h : matchInTimeAt cs = some (len, amt, u)) :
    ∃ ds tail,
      ds ≠ [] ∧ (∀ c ∈ ds, c.isDigit = true) ∧ digitsVal ds = amt
      ∧ u ∈ unitAlternatives
      ∧ cs = 'i' :: 'n' :: ' ' :: (ds ++ ' ' :: (u ++ tail))
      ∧ len = ds.length + u.length + 4 := by
  unfold matchInTimeAt at h
  split at h
  case h_2 => simp at h
  case h_1 rest =>
    dsimp only at h
    split at h
    case isTrue => simp at h
    case isFalse hne =>
      split at h
      case h_2 => simp at h
      case h_1 rest2 hdrop =>
        split at h
        case h_2 => simp at h
        case h_1 u2 hunit =>
          unfold matchUnit at hunit
          simp only [Option.some.injEq, Prod.mk.injEq] at h
          obtain ⟨hlen, hamt, hu⟩ := h
          subst hu
          obtain ⟨t1, ht1⟩ :=
            List.takeWhile_prefix (l := rest) Char.isDigit
          have hdig : ∀ c ∈ rest.takeWhile Char.isDigit,
              Char.isDigit c = true :=
            fun c hc => List.mem_takeWhile_imp hc
          generalize hds : rest.takeWhile Char.isDigit = ds
            at hne hdrop hlen hamt ht1 hdig
          have hd1 : rest.drop ds.length = t1 := by
            rw [← ht1]
            exact List.drop_left _ _
          have ht1s : t1 = ' ' :: rest2 := by rw [← hd1, hdrop]
          rw [ht1s] at ht1
          have hsw := List.find?_some hunit
          obtain ⟨t2, ht2⟩ := startsWithL_sound u2 rest2 hsw
          refine ⟨ds, t2, ?_, hdig, hamt, ?_, ?_, ?_⟩
          · simpa using hne
          · exact List.mem_of_find?_eq_some hunit
          · rw [← ht1, ht2]
          · omega

theorem findInTime_sound (cs : List Char) (i : Nat) (m : InTimeMatch)
    (h : findInTime cs i = some m) :
    i ≤ m.start
    ∧ matchInTimeAt (cs.drop (m.start - i))
        = some (m.length, m.amount, m.unit) := by
  induction cs generalizing i with
  | nil => simp [findInTime] at h
  | cons c cs2 ih =>
    simp only [findInTime] at h
    cases hma : matchInTimeAt (c :: cs2) with
    | some v =>
      rw [hma] at h
      obtain ⟨len, amt, u⟩ := v
      simp only [Option.some.injEq] at h
      subst h
      simpa using hma
    | none =>
      rw [hma] at h
      obtain ⟨h1, h2⟩ := ih (i + 1) h
      refine ⟨by omega, ?_⟩
      have hst : m.start - i = (m.start - (i + 1)) + 1 := by omega
      rw [hst, List.drop_succ_cons]
      exact h2

/-- C3 counterexample: with the primary grammar not matching, local
extraction of the input containing the phrase in 2 hours yields the right
due instant but leaves a stray letter s in the title — the strip regex
alternation matches the singular unit word first, so the matched text is
only in 2 hour and the plural s survives; the phrase is not removed as the
claim states. -/
theorem C3_counterexample :
    parseInputLocal none 0 0 "Call mom in 2 hours"
      = ⟨"Call mom s", some 7200000⟩
    ∧ ("Call mom s" : String) ≠ "Call mom" := by
  exact ⟨by decide, by decide⟩

/-- C3 (amended): for every input, reference instant and zone offset, with
the primary grammar not matching, whenever the relative-time regex finds
its first match in the (lowered, trimmed) input, that match decomposes as
the literal text in, a space, a non-empty digit string whose value is the
amount N, a space, and one of the unit alternatives; the due date is the
reference plus N hours when the matched unit word starts with hour and the
reference plus N minutes otherwise; and the title is the trimmed input with
exactly the matched span — the characters carrying in N and the matched
unit word, which is the singular form even when the input word is plural —
removed.  The plural trailing s, lying just outside the matched span, thus
survives in the title. -/
theorem C3_relative_time_general (input : String) (now off : Int)
    (m : InTimeMatch)
    (hm : findInTime (lowerList (jsTrim input).toList) 0 = some m) :
    (startsWithL (String.toList "hour") m.unit = true →
      (parseInputLocal none now off input).dueDate
        = some (now + (m.amount : Int) * msPerHour))
    ∧ (startsWithL (String.toList "hour") m.unit = false →
      (parseInputLocal none now off input).dueDate
        = some (now + (m.amount : Int) * msPerMinute))
    ∧ (parseInputLocal none now off input).title
        = String.mk (trimChars ((jsTrim input).toList.take m.start
            ++ (jsTrim input).toList.drop (m.start + m.length)))
    ∧ ∃ ds tail,
        ds ≠ [] ∧ (∀ c ∈ ds, c.isDigit = true) ∧ digitsVal ds = m.amount
        ∧ m.unit ∈ unitAlternatives
        ∧ (lowerList (jsTrim input).toList).drop m.start
            = ('i' :: 'n' :: ' ' :: (ds ++ ' ' :: m.unit)) ++ tail
        ∧ ((lowerList (jsTrim input).toList).drop m.start).take m.length
            = 'i' :: 'n' :: ' ' :: (ds ++ ' ' :: m.unit)
        ∧ m.length = ds.length + m.unit.length + 4 := by
  obtain ⟨hle, hmat⟩ := findInTime_sound _ 0 m hm
  rw [Nat.sub_zero] at hmat
  obtain ⟨ds, tail, hne, hdig, hval, hmem, heq, hlen⟩ :=
    matchInTimeAt_sound _ _ _ _ hmat
  refine ⟨fun hu => ?_, fun hu => ?_, ?_, ds, tail, hne, hdig, hval, hmem,
    ?_, ?_, hlen⟩
  · simp only [parseInputLocal, hm, if_pos hu]
    rw [Option.some_inj]
    push_cast
    simp only [msPerMinute, msPerHour]
    ring
  · simp only [parseInputLocal, hm, hu, Bool.false_eq_true, if_false]
  · simp only [parseInputLocal, hm]
  · rw [heq]
    simp
  · rw [heq]
    have hplen : m.length
        = ('i' :: 'n' :: ' ' :: (ds ++ ' ' :: m.unit) : List Char).length := by
      simp [hlen]
      omega
    rw [show ('i' :: 'n' :: ' ' :: (ds ++ ' ' :: (m.unit ++ tail))
          : List Char)
        = ('i' :: 'n' :: ' ' :: (ds ++ ' ' :: m.unit)) ++ tail by simp,
      hplen]
    exact List.take_left _ _

/-- C3 witness: the general theorem applied at concrete inputs — the
plural form in 2 hours gives reference plus 2 hours with the stray s left
in the title, in 30 minutes gives reference plus 30 minutes, and the
singular form in 1 hour strips its whole phrase. -/
theorem C3_witness :
    (parseInputLocal none 5 7 "Call mom in 2 hours").dueDate
      = some (5 + 2 * msPerHour)
    ∧ (parseInputLocal none 5 7 "Call mom in 2 hours").title = "Call mom s"
    ∧ (parseInputLocal none 5 7 "Call mom in 30 minutes").dueDate
      = some (5 + 30 * msPerMinute)
    ∧ (parseInputLocal none 5 7 "Call mom in 1 hour").title = "Call mom" := by
  have h2 := C3_relative_time_general "Call mom in 2 hours" 5 7
    ⟨9, 9, 2, String.toList "hour"⟩ (by decide)
  have h30 := C3_relative_time_general "Call mom in 30 minutes" 5 7
    ⟨9, 12, 30, String.toList "minute"⟩ (by decide)
  have h1 := C3_relative_time_general "Call mom in 1 hour" 5 7
    ⟨9, 9, 1, String.toList "hour"⟩ (by decide)
  refine ⟨h2.1 (by decide), ?_, h30.2.1 (by decide), ?_⟩
  · rw [h2.2.2.1]
    decide
  · rw [h1.2.2.1]
    decide

/-- C4 counterexample: with the primary grammar not matching, the tomorrow
heuristic sets a due date but does not strip the matched word from the
title: the title still contains tomorrow, unchanged from the trimmed
input. -/
theorem C4_counterexample :
    parseInputLocal none 0 0 "meet tomorrow"
      = ⟨"meet tomorrow", some 118800000⟩
    ∧ hasSubstr (String.toList "tomorrow")
        (lowerList (String.toList "meet tomorrow")) = true := by
  exact ⟨by decide, by decide⟩

/-- C4 (amended): only the relative-time heuristic strips its matched text
(and then imperfectly, see the C3 theorems); whenever the relative-time
regex does not match, the heuristic branches — tomorrow, today, next week,
and the no-match case alike — return the trimmed input as the title,
stripping nothing. -/
theorem C4_heuristics_leave_title (input : String) (now off : Int)
    (h1 : findInTime (lowerList (jsTrim input).toList) 0 = none) :
    (parseInputLocal none now off input).title = jsTrim input := by
  simp only [parseInputLocal, h1]
  split_ifs <;> rfl

/-- C4 witness: the amended theorem on an input whose phrase is tomorrow. -/
theorem C4_witness :
    (parseInputLocal none 5 3 "meet tomorrow").title = jsTrim "meet tomorrow" :=
  C4_heuristics_leave_title "meet tomorrow" 5 3 (by decide)

/-- C5: with the primary grammar and the relative-time regex not matching,
an input containing tomorrow gets a due instant on the next local calendar
day at 09:00 local; otherwise an input containing today gets the same local
calendar day at 17:00 local; otherwise an input containing next week gets
the local calendar day of reference plus 7 days at 09:00 local. -/
theorem C5_default_times (input : String) (now off : Int)
    (h1 : findInTime (lowerList (jsTrim input).toList) 0 = none) :
    (hasSubstr (String.toList "tomorrow")
        (lowerList (jsTrim input).toList) = true →
      (parseInputLocal none now off input).dueDate = some (tomorrowDue now off)
      ∧ localDayOf (tomorrowDue now off) off = localDayOf now off + 1
      ∧ localTimeOfDay (tomorrowDue now off) off = 9 * msPerHour)
    ∧ (hasSubstr (String.toList "tomorrow")
        (lowerList (jsTrim input).toList) = false →
      hasSubstr (String.toList "today")
        (lowerList (jsTrim input).toList) = true →
      (parseInputLocal none now off input).dueDate = some (todayDue now off)
      ∧ localDayOf (todayDue now off) off = localDayOf now off
      ∧ localTimeOfDay (todayDue now off) off = 17 * msPerHour)
    ∧ (hasSubstr (String.toList "tomorrow")
        (lowerList (jsTrim input).toList) = false →
      hasSubstr (String.toList "today")
        (lowerList (jsTrim input).toList) = false →
      hasSubstr (String.toList "next week")
        (lowerList (jsTrim input).toList) = true →
      (parseInputLocal none now off input).dueDate
        = some (nextWeekDue now off)
      ∧ localDayOf (nextWeekDue now off) off
        = localDayOf (now + 7 * msPerDay) off
      ∧ localTimeOfDay (nextWeekDue now off) off = 9 * msPerHour) := by
  refine ⟨fun ht => ⟨?_, ?_, ?_⟩, fun ht hd => ⟨?_, ?_, ?_⟩,
    fun ht hd hw => ⟨?_, ?_, ?_⟩⟩
  · simp only [parseInputLocal, h1, ht, if_true]
  · simp only [tomorrowDue, localDayOf, msPerDay, msPerHour]
    omega
  · simp only [tomorrowDue, localDayOf, localTimeOfDay, msPerDay, msPerHour]
    omega
  · simp only [parseInputLocal, h1, ht, hd, Bool.false_eq_true, if_false,
      if_true]
  · simp only [todayDue, localDayOf, msPerDay, msPerHour]
    omega
  · simp only [todayDue, localDayOf, localTimeOfDay, msPerDay, msPerHour]
    omega
  · simp only [parseInputLocal, h1, ht, hd, hw, Bool.false_eq_true,
      if_false, if_true]
  · simp only [nextWeekDue, localDayOf, msPerDay, msPerHour]
    omega
  · simp only [nextWeekDue, localDayOf, localTimeOfDay, msPerDay, msPerHour]
    omega

/-- C5 witness: the three branches of the theorem at concrete inputs, a
concrete reference instant and a concrete zone offset. -/
theorem C5_witness :
    (parseInputLocal none 1000 18000000 "meet tomorrow").dueDate
      = some (tomorrowDue 1000 18000000)
    ∧ (parseInputLocal none 1000 18000000 "finish report today").dueDate
      = some (todayDue 1000 18000000)
    ∧ (parseInputLocal none 1000 18000000 "plan next week").dueDate
      = some (nextWeekDue 1000 18000000) :=
  ⟨((C5_default_times "meet tomorrow" 1000 18000000 (by decide)).1
      (by decide)).1,
   ((C5_default_times "finish report today" 1000 18000000 (by decide)).2.1
      (by decide) (by decide)).1,
   ((C5_default_times "plan next week" 1000 18000000 (by decide)).2.2
      (by decide) (by decide) (by decide)).1⟩

/-- C6: the local extractor is a total function (it never throws), and on
an input in which neither the primary grammar nor any secondary heuristic
matches, the result carries no due date and the title is exactly the
trimmed raw input. -/
theorem C6_no_phrase (input : String) (now off : Int)
    (h1 : findInTime (lowerList (jsTrim input).toList) 0 = none)
    (h2 : hasSubstr (String.toList "tomorrow")
        (lowerList (jsTrim input).toList) = false)
    (h3 : hasSubstr (String.toList "today")
        (lowerList (jsTrim input).toList) = false)
    (h4 : hasSubstr (String.toList "next week")
        (lowerList (jsTrim input).toList) = false) :
    parseInputLocal none now off input = ⟨jsTrim input, none⟩ := by
  simp only [parseInputLocal, h1, h2, h3, h4, Bool.false_eq_true, if_false]

/-- C6 witness: an input with no temporal phrase, at a concrete reference
instant and offset. -/
theorem C6_witness :
    parseInputLocal none 7 11 "buy milk" = ⟨jsTrim "buy milk", none⟩ :=
  C6_no_phrase "buy milk" 7 11 (by decide) (by decide) (by decide)
    (by decide)

theorem fanoutGo_attempted (failing : Nat → Bool) (snap reg : List Nat) :
    (fanoutGo failing snap reg).1 = snap := by
  induction snap generalizing reg with
  | nil => rfl
  | cons s rest ih => simp [fanoutGo, ih]

theorem fanoutGo_registry (failing : Nat → Bool) (snap reg : List Nat) :
    (fanoutGo failing snap reg).2
      = reg.filter (fun x => !(failing x && decide (x ∈ snap))) := by
  induction snap generalizing reg with
  | nil => simp [fanoutGo]
  | cons s rest ih =>
    simp only [fanoutGo]
    rw [ih]
    by_cases hf : failing s
    · rw [if_pos hf, List.filter_filter]
      refine List.filter_congr ?_
      intro x hx
      by_cases hxs : x = s
      · subst hxs
        simp [hf]
      · simp [hxs]
    · rw [if_neg hf]
      refine List.filter_congr ?_
      intro x hx
      by_cases hxs : x = s
      · subst hxs
        simp [Bool.of_not_eq_true hf]
      · simp [hxs]

/-- C8: one delivery fan-out iterates the whole snapshot taken at delivery
time — every subscription in the snapshot is attempted, in order, whatever
failures occur before it — and the final registry is the initial one with
exactly the failing subscriptions removed and no other. -/
theorem C8_fanout (reg : List Nat) (failing : Nat → Bool) :
    (pushFanout failing reg).1 = reg
    ∧ (pushFanout failing reg).2 = reg.filter (fun x => ! failing x) := by
  refine ⟨fanoutGo_attempted failing reg reg, ?_⟩
  rw [pushFanout, fanoutGo_registry]
  refine List.filter_congr ?_
  intro x hx
  simp [hx]

/-- C9: a POST tasks request carrying only a free-text input whose parse
yields a title that trims to empty is rejected with the 400 response; by
construction of the handler model, the badRequest outcome stores no task
and invokes no scheduling. -/
theorem C9_empty_parsed_title (inp : String) (dueB : Option Int)
    (emailB : Option String) (parse : String → ParseResult)
    (newId : String) (now : Int)
    (hin : inp ≠ "") (hp : jsTrim (parse inp).title = "") :
    postTasks none (some inp) dueB emailB parse newId now
      = PostOutcome.badRequest := by
  have hinb : (inp == "") = false := by simpa using hin
  simp [postTasks, jsFalsyStr, hinb, hp]

/-- C9 witness: an input that is entirely a temporal phrase — in 1 hour —
parses (with the local extractor, primary grammar not matching) to an
empty title and is rejected with 400. -/
theorem C9_witness :
    postTasks none (some "in 1 hour") none none
      (fun s => parseInputLocal none 0 0 s) "id1" 0
      = PostOutcome.badRequest :=
  C9_empty_parsed_title "in 1 hour" none none
    (fun s => parseInputLocal none 0 0 s) "id1" 0 (by decide) (by decide)

/-- C10 counterexample: a successful PUT whose body carries only a
free-text input (title absent, dueDate undefined) replaces the stored
title with the parsed one and overwrites the stored due date with the
parse result, although both fields are absent from the body — the claim
that every absent field retains its stored value fails. -/
theorem C10_counterexample :
    (putTask ⟨"t1", "old", some 1000, false, some "a"⟩
        ⟨none, none, none, none, some "buy milk"⟩
        (fun s => parseInputLocal none 0 0 s)).title = "buy milk"
    ∧ (putTask ⟨"t1", "old", some 1000, false, some "a"⟩
        ⟨none, none, none, none, some "buy milk"⟩
        (fun s => parseInputLocal none 0 0 s)).title ≠ "old"
    ∧ (putTask ⟨"t1", "old", some 1000, false, some "a"⟩
        ⟨none, none, none, none, some "buy milk"⟩
        (fun s => parseInputLocal none 0 0 s)).dueDate = none
    ∧ (Task.mk "t1" "old" (some 1000) false (some "a")).dueDate
        = some 1000 := by
  exact ⟨by decide, by decide, by decide, by decide⟩

/-- C10 (amended): on a successful PUT whose body carries no truthy
free-text input, each of title, dueDate, completed and email takes the
supplied value when supplied (title trimmed) and retains the stored value
when absent, and the id is never changed; when an input is supplied with
title absent and dueDate undefined, title and dueDate are instead taken
from extraction of the input. -/
theorem C10_frame (existing : Task) (b : PutBody)
    (parse : String → ParseResult) (hin : jsFalsyStr b.input = true) :
    putTask existing b parse
      = ⟨existing.id,
         (match b.title with
          | some s => jsTrim s
          | none => existing.title),
         (match b.dueDate with
          | some d => d
          | none => existing.dueDate),
         (match b.completed with
          | some c => c
          | none => existing.completed),
         (match b.email with
          | some e => e
          | none => existing.email)⟩ := by
  simp only [putTask, hin, Bool.not_true, Bool.false_and,
    Bool.false_eq_true, if_false]

/-- C10 witness: the amended theorem on a body supplying title and
completed only; dueDate, email and id are retained, title is trimmed,
completed is replaced. -/
theorem C10_witness :
    putTask ⟨"t1", "old", some 5, false, some "a"⟩
        ⟨some " new ", none, some true, none, none⟩
        (fun s => parseInputLocal none 0 0 s)
      = ⟨"t1", "new", some 5, true, some "a"⟩ := by
  rw [C10_frame ⟨"t1", "old", some 5, false, some "a"⟩
    ⟨some " new ", none, some true, none, none⟩
    (fun s => parseInputLocal none 0 0 s) rfl]
  decide

end TaskManager
